import Mathlib

/-!
Verification of the translation routing and caching engine of `src/app.py`.

The engine consists of `detect_lang` (script-based source-language resolution)
and `translate_text_process` (routing, two-hop composition and a global result
cache).  The translation models (`model_en_zh`/`model_zh_en`) and the OpenCC
converters (`converter_s2t`/`converter_t2s`) are external capabilities; they
are modelled as opaque string functions collected in a `Caps` record.
Python's `str.isalpha` is likewise runtime behaviour external to the
repository, so `detect_lang` takes the alphabetic-character predicate as a
parameter; `pyIsAlpha` below is a concrete instance matching Python on the
characters occurring in the concrete examples.
-/

set_option maxHeartbeats 1000000

namespace App

/-- `detect_lang(text)` from `src/app.py`:
`zh` counts characters in the CJK Unified Ideographs range U+4E00..U+9FFF,
`en` counts characters satisfying the runtime's `isalpha`, and the result is
`"zh-CN"` when `zh > en` and `"en"` otherwise. -/
def detect_lang (isalpha : Char → Bool) (text : String) : String :=
  let zh := text.data.countP (fun c => decide (0x4E00 ≤ c.toNat ∧ c.toNat ≤ 0x9FFF))
  let en := text.data.countP (fun c => isalpha c)
  if zh > en then "zh-CN" else "en"

/-- The four external capabilities dispatched by `translate_text_process`:
the two MarianMT pipelines and the two OpenCC converters. -/
structure Caps where
  en_zh : String → String
  zh_en : String → String
  s2t : String → String
  t2s : String → String

/-- A cache key is the `(text, src, tgt)` triple. -/
abbrev TKey := String × String × String

/-- `translation_cache`: a finite map from keys to translated strings,
represented as an association list (newest entry first). -/
abbrev Cache := List (TKey × String)

/-- Dictionary lookup in the cache. -/
def cacheLookup : Cache → TKey → Option String
  | [], _ => none
  | (k, v) :: rest, key => if key = k then some v else cacheLookup rest key

/-- Termination measure for `translate_text_process`: an `"auto"` source may
resolve into a composed pair, and a composed pair recurses only into direct
pairs. -/
def routeDepth (src tgt : String) : Nat :=
  if src = "auto" then 2
  else if (src = "en" ∧ tgt = "zh-TW") ∨ (src = "zh-TW" ∧ tgt = "en") then 1
  else 0

/-- `translate_text_process(text, src, tgt)` from `src/app.py`, with the
global mutable `translation_cache` passed explicitly and threaded through the
recursive calls.  The extra `Nat` component counts capability invocations
(model `generate` calls plus converter calls) performed by the call, which the
Python code performs as side effects. -/
def translate_text_process (caps : Caps) (isalpha : Char → Bool)
    (cache : Cache) (text src tgt : String) : String × Cache × Nat :=
  if text = "" then ("", cache, 0)
  else
    let src' := if src = "auto" then detect_lang isalpha text else src
    let key : TKey := (text, src', tgt)
    match cacheLookup cache key with
    | some v => (v, cache, 0)
    | none =>
      if src' = "en" ∧ tgt = "zh-CN" then
        let result := caps.en_zh text
        (result, (key, result) :: cache, 1)
      else if src' = "zh-CN" ∧ tgt = "en" then
        let result := caps.zh_en text
        (result, (key, result) :: cache, 1)
      else if src' = "zh-CN" ∧ tgt = "zh-TW" then
        let result := caps.s2t text
        (result, (key, result) :: cache, 1)
      else if src' = "zh-TW" ∧ tgt = "zh-CN" then
        let result := caps.t2s text
        (result, (key, result) :: cache, 1)
      else if h1 : src' = "en" ∧ tgt = "zh-TW" then
        let m := translate_text_process caps isalpha cache text "en" "zh-CN"
        let r := translate_text_process caps isalpha m.2.1 m.1 "zh-CN" "zh-TW"
        (r.1, (key, r.1) :: r.2.1, m.2.2 + r.2.2)
      else if h2 : src' = "zh-TW" ∧ tgt = "en" then
        let m := translate_text_process caps isalpha cache text "zh-TW" "zh-CN"
        let r := translate_text_process caps isalpha m.2.1 m.1 "zh-CN" "en"
        (r.1, (key, r.1) :: r.2.1, m.2.2 + r.2.2)
      else
        (text, (key, text) :: cache, 0)
termination_by routeDepth src tgt
decreasing_by
  all_goals
    simp only [routeDepth]
    by_cases ha : src = "auto"
    · simp [ha]
    · have hs : src' = src := dif_neg ha
      first
      | (rw [hs] at h1; simp [h1.1, h1.2, ha])
      | (rw [hs] at h2; simp [h2.1, h2.2, ha])

/-- The six `(src, tgt)` pairs handled by a non-default branch of
`translate_text_process` (four direct capabilities and two composed routes). -/
def routed (src tgt : String) : Prop :=
  (src = "en" ∧ tgt = "zh-CN") ∨ (src = "zh-CN" ∧ tgt = "en") ∨
  (src = "zh-CN" ∧ tgt = "zh-TW") ∨ (src = "zh-TW" ∧ tgt = "zh-CN") ∨
  (src = "en" ∧ tgt = "zh-TW") ∨ (src = "zh-TW" ∧ tgt = "en")

instance (src tgt : String) : Decidable (routed src tgt) := by
  unfold routed; infer_instance

/-- Cache states reachable from the empty `translation_cache` by a sequence of
`translate_text_process` calls with arbitrary arguments. -/
inductive Reachable (caps : Caps) (isalpha : Char → Bool) : Cache → Prop
  | init : Reachable caps isalpha []
  | step (c : Cache) (t s g : String) : Reachable caps isalpha c →
      Reachable caps isalpha (translate_text_process caps isalpha c t s g).2.1

/-- Python's `str.isalpha`, restricted to the characters appearing in the
concrete examples of this file: ASCII letters and the CJK Unified Ideographs
block U+4E00..U+9FFF (all of whose code points carry the Unicode Alphabetic
property, hence satisfy `str.isalpha`). -/
def pyIsAlpha (c : Char) : Bool :=
  (0x41 ≤ c.toNat && c.toNat ≤ 0x5A) || (0x61 ≤ c.toNat && c.toNat ≤ 0x7A) ||
  (0x4E00 ≤ c.toNat && c.toNat ≤ 0x9FFF)

/-- Identity capabilities: usable for paths that invoke no capability. -/
def capsId : Caps :=
  { en_zh := fun t => t, zh_en := fun t => t, s2t := fun t => t, t2s := fun t => t }

/-- Marking stub capabilities: each capability tags its input so the
composition order is visible in the output.  The converters map the empty
string to itself, as OpenCC does. -/
def capsMark : Caps :=
  { en_zh := fun t => String.append "E" t
    zh_en := fun t => String.append "F" t
    s2t := fun t => if t = "" then "" else String.append "S" t
    t2s := fun t => if t = "" then "" else String.append "T" t }

/-- The source tag actually used by `translate_text_process` for the cache
key: the `detect_lang` output when the caller passed `"auto"`. -/
def resolveSrc (isalpha : Char → Bool) (text src : String) : String :=
  if src = "auto" then detect_lang isalpha text else src

/-- Invariant satisfied by every entry `translate_text_process` ever stores in
the cache: the text component is nonempty, the source component is never the
`"auto"` sentinel, and an entry for an unrouted pair binds the text to
itself. -/
def EntryOk (e : TKey × String) : Prop :=
  e.1.1 ≠ "" ∧ e.1.2.1 ≠ "auto" ∧ (¬ routed e.1.2.1 e.1.2.2 → e.2 = e.1.1)

/-! ### Helper lemmas: one equation per branch of `translate_text_process` -/

lemma detect_lang_cases (isalpha : Char → Bool) (text : String) :
    detect_lang isalpha text = "zh-CN" ∨ detect_lang isalpha text = "en" := by
  unfold detect_lang
  dsimp only
  split <;> simp

lemma detect_lang_ne_auto (isalpha : Char → Bool) (text : String) :
    detect_lang isalpha text ≠ "auto" := by
  rcases detect_lang_cases isalpha text with h | h <;> simp [h]

lemma ttp_empty (caps : Caps) (isalpha : Char → Bool) (c : Cache) (s g : String) :
    translate_text_process caps isalpha c "" s g = ("", c, 0) := by
  rw [translate_text_process]
  simp

lemma ttp_auto (caps : Caps) (isalpha : Char → Bool) (c : Cache) (t g : String)
    (ht : t ≠ "") :
    translate_text_process caps isalpha c t "auto" g =
      translate_text_process caps isalpha c t (detect_lang isalpha t) g := by
  conv_lhs => rw [translate_text_process]
  conv_rhs => rw [translate_text_process]
  simp [ht, detect_lang_ne_auto]

lemma ttp_hit (caps : Caps) (isalpha : Char → Bool) (c : Cache) (t s g v : String)
    (ht : t ≠ "") (hs : s ≠ "auto") (hv : cacheLookup c (t, s, g) = some v) :
    translate_text_process caps isalpha c t s g = (v, c, 0) := by
  rw [translate_text_process]
  simp [ht, hs, hv]

lemma ttp_en_zhCN (caps : Caps) (isalpha : Char → Bool) (c : Cache) (t : String)
    (ht : t ≠ "") (hm : cacheLookup c (t, "en", "zh-CN") = none) :
    translate_text_process caps isalpha c t "en" "zh-CN" =
      (caps.en_zh t, ((t, "en", "zh-CN"), caps.en_zh t) :: c, 1) := by
  conv_lhs => rw [translate_text_process]
  simp [ht, hm]

lemma ttp_zhCN_en (caps : Caps) (isalpha : Char → Bool) (c : Cache) (t : String)
    (ht : t ≠ "") (hm : cacheLookup c (t, "zh-CN", "en") = none) :
    translate_text_process caps isalpha c t "zh-CN" "en" =
      (caps.zh_en t, ((t, "zh-CN", "en"), caps.zh_en t) :: c, 1) := by
  conv_lhs => rw [translate_text_process]
  simp [ht, hm]

lemma ttp_zhCN_zhTW (caps : Caps) (isalpha : Char → Bool) (c : Cache) (t : String)
    (ht : t ≠ "") (hm : cacheLookup c (t, "zh-CN", "zh-TW") = none) :
    translate_text_process caps isalpha c t "zh-CN" "zh-TW" =
      (caps.s2t t, ((t, "zh-CN", "zh-TW"), caps.s2t t) :: c, 1) := by
  conv_lhs => rw [translate_text_process]
  simp [ht, hm]

lemma ttp_zhTW_zhCN (caps : Caps) (isalpha : Char → Bool) (c : Cache) (t : String)
    (ht : t ≠ "") (hm : cacheLookup c (t, "zh-TW", "zh-CN") = none) :
    translate_text_process caps isalpha c t "zh-TW" "zh-CN" =
      (caps.t2s t, ((t, "zh-TW", "zh-CN"), caps.t2s t) :: c, 1) := by
  conv_lhs => rw [translate_text_process]
  simp [ht, hm]

lemma ttp_pass (caps : Caps) (isalpha : Char → Bool) (c : Cache) (t s g : String)
    (ht : t ≠ "") (hs : s ≠ "auto") (hr : ¬ routed s g)
    (hm : cacheLookup c (t, s, g) = none) :
    translate_text_process caps isalpha c t s g = (t, ((t, s, g), t) :: c, 0) := by
  unfold routed at hr
  push_neg at hr
  have e1 : ¬(s = "en" ∧ g = "zh-CN") := fun h => hr.1 h.1 h.2
  have e2 : ¬(s = "zh-CN" ∧ g = "en") := fun h => hr.2.1 h.1 h.2
  have e3 : ¬(s = "zh-CN" ∧ g = "zh-TW") := fun h => hr.2.2.1 h.1 h.2
  have e4 : ¬(s = "zh-TW" ∧ g = "zh-CN") := fun h => hr.2.2.2.1 h.1 h.2
  have e5 : ¬(s = "en" ∧ g = "zh-TW") := fun h => hr.2.2.2.2.1 h.1 h.2
  have e6 : ¬(s = "zh-TW" ∧ g = "en") := fun h => hr.2.2.2.2.2 h.1 h.2
  conv_lhs => rw [translate_text_process]
  simp [ht, hs, hm, e1, e2, e3, e4, e5, e6]

lemma ttp_en_zhTW (caps : Caps) (isalpha : Char → Bool) (c : Cache) (t : String)
    (ht : t ≠ "") (hm : cacheLookup c (t, "en", "zh-TW") = none) :
    translate_text_process caps isalpha c t "en" "zh-TW" =
      ((translate_text_process caps isalpha
          (translate_text_process caps isalpha c t "en" "zh-CN").2.1
          (translate_text_process caps isalpha c t "en" "zh-CN").1 "zh-CN" "zh-TW").1,
       ((t, "en", "zh-TW"),
          (translate_text_process caps isalpha
            (translate_text_process caps isalpha c t "en" "zh-CN").2.1
            (translate_text_process caps isalpha c t "en" "zh-CN").1 "zh-CN" "zh-TW").1) ::
         (translate_text_process caps isalpha
           (translate_text_process caps isalpha c t "en" "zh-CN").2.1
           (translate_text_process caps isalpha c t "en" "zh-CN").1 "zh-CN" "zh-TW").2.1,
       (translate_text_process caps isalpha c t "en" "zh-CN").2.2 +
         (translate_text_process caps isalpha
           (translate_text_process caps isalpha c t "en" "zh-CN").2.1
           (translate_text_process caps isalpha c t "en" "zh-CN").1 "zh-CN" "zh-TW").2.2) := by
  conv_lhs => rw [translate_text_process]
  simp [ht, hm]

lemma ttp_zhTW_en (caps : Caps) (isalpha : Char → Bool) (c : Cache) (t : String)
    (ht : t ≠ "") (hm : cacheLookup c (t, "zh-TW", "en") = none) :
    translate_text_process caps isalpha c t "zh-TW" "en" =
      ((translate_text_process caps isalpha
          (translate_text_process caps isalpha c t "zh-TW" "zh-CN").2.1
          (translate_text_process caps isalpha c t "zh-TW" "zh-CN").1 "zh-CN" "en").1,
       ((t, "zh-TW", "en"),
          (translate_text_process caps isalpha
            (translate_text_process caps isalpha c t "zh-TW" "zh-CN").2.1
            (translate_text_process caps isalpha c t "zh-TW" "zh-CN").1 "zh-CN" "en").1) ::
         (translate_text_process caps isalpha
           (translate_text_process caps isalpha c t "zh-TW" "zh-CN").2.1
           (translate_text_process caps isalpha c t "zh-TW" "zh-CN").1 "zh-CN" "en").2.1,
       (translate_text_process caps isalpha c t "zh-TW" "zh-CN").2.2 +
         (translate_text_process caps isalpha
           (translate_text_process caps isalpha c t "zh-TW" "zh-CN").2.1
           (translate_text_process caps isalpha c t "zh-TW" "zh-CN").1 "zh-CN" "en").2.2) := by
  conv_lhs => rw [translate_text_process]
  simp [ht, hm]

/-! ### Cache lookup facts -/

lemma cacheLookup_cons_self (c : Cache) (k : TKey) (w : String) :
    cacheLookup ((k, w) :: c) k = some w := by
  simp [cacheLookup]

lemma cacheLookup_cons_ne (c : Cache) (k k' : TKey) (w : String) (h : k ≠ k') :
    cacheLookup ((k', w) :: c) k = cacheLookup c k := by
  simp [cacheLookup, h]

lemma cacheLookup_mem (c : Cache) (k : TKey) (v : String)
    (h : cacheLookup c k = some v) : (k, v) ∈ c := by
  induction c with
  | nil => simp [cacheLookup] at h
  | cons e rest ih =>
    obtain ⟨k', w⟩ := e
    by_cases hk : k = k'
    · subst hk
      rw [cacheLookup_cons_self] at h
      simp_all
    · rw [cacheLookup_cons_ne _ _ _ _ hk] at h
      exact List.mem_cons_of_mem _ (ih h)

lemma ne_of_lookup (c : Cache) (k k' : TKey) (v : String)
    (h1 : cacheLookup c k = some v) (h2 : cacheLookup c k' = none) : k ≠ k' := by
  rintro rfl
  rw [h1] at h2
  simp at h2

/-- After a call with nonempty text, the resolved key is bound to the returned
result. -/
lemma ttp_lookup_self_nonauto (caps : Caps) (isalpha : Char → Bool) (c : Cache)
    (t s g : String) (ht : t ≠ "") (hs : s ≠ "auto") :
    cacheLookup (translate_text_process caps isalpha c t s g).2.1 (t, s, g) =
      some (translate_text_process caps isalpha c t s g).1 := by
  cases hv : cacheLookup c (t, s, g) with
  | some v => rw [ttp_hit caps isalpha c t s g v ht hs hv]; exact hv
  | none =>
    by_cases b1 : s = "en" ∧ g = "zh-CN"
    · obtain ⟨rfl, rfl⟩ := b1
      rw [ttp_en_zhCN caps isalpha c t ht hv]; exact cacheLookup_cons_self ..
    by_cases b2 : s = "zh-CN" ∧ g = "en"
    · obtain ⟨rfl, rfl⟩ := b2
      rw [ttp_zhCN_en caps isalpha c t ht hv]; exact cacheLookup_cons_self ..
    by_cases b3 : s = "zh-CN" ∧ g = "zh-TW"
    · obtain ⟨rfl, rfl⟩ := b3
      rw [ttp_zhCN_zhTW caps isalpha c t ht hv]; exact cacheLookup_cons_self ..
    by_cases b4 : s = "zh-TW" ∧ g = "zh-CN"
    · obtain ⟨rfl, rfl⟩ := b4
      rw [ttp_zhTW_zhCN caps isalpha c t ht hv]; exact cacheLookup_cons_self ..
    by_cases b5 : s = "en" ∧ g = "zh-TW"
    · obtain ⟨rfl, rfl⟩ := b5
      rw [ttp_en_zhTW caps isalpha c t ht hv]; exact cacheLookup_cons_self ..
    by_cases b6 : s = "zh-TW" ∧ g = "en"
    · obtain ⟨rfl, rfl⟩ := b6
      rw [ttp_zhTW_en caps isalpha c t ht hv]; exact cacheLookup_cons_self ..
    have hr : ¬ routed s g := by
      unfold routed; tauto
    rw [ttp_pass caps isalpha c t s g ht hs hr hv]
    exact cacheLookup_cons_self ..

lemma ttp_lookup_self (caps : Caps) (isalpha : Char → Bool) (c : Cache)
    (t s g : String) (ht : t ≠ "") :
    cacheLookup (translate_text_process caps isalpha c t s g).2.1
        (t, resolveSrc isalpha t s, g) =
      some (translate_text_process caps isalpha c t s g).1 := by
  by_cases ha : s = "auto"
  · subst ha
    rw [ttp_auto caps isalpha c t g ht]
    simpa [resolveSrc] using
      ttp_lookup_self_nonauto caps isalpha c t (detect_lang isalpha t) g ht
        (detect_lang_ne_auto isalpha t)
  · simpa [resolveSrc, ha] using
      ttp_lookup_self_nonauto caps isalpha c t s g ht ha

/-! ### Existing cache bindings are never changed -/

lemma ttp_mono_basic (caps : Caps) (isalpha : Char → Bool) (c : Cache)
    (t s g : String) (k : TKey) (v : String) (hs : s ≠ "auto")
    (hnc : ¬((s = "en" ∧ g = "zh-TW") ∨ (s = "zh-TW" ∧ g = "en")))
    (h : cacheLookup c k = some v) :
    cacheLookup (translate_text_process caps isalpha c t s g).2.1 k = some v := by
  by_cases ht : t = ""
  · subst ht; rw [ttp_empty]; exact h
  cases hv : cacheLookup c (t, s, g) with
  | some w => rw [ttp_hit caps isalpha c t s g w ht hs hv]; exact h
  | none =>
    have hk : k ≠ (t, s, g) := ne_of_lookup c k (t, s, g) v h hv
    by_cases b1 : s = "en" ∧ g = "zh-CN"
    · obtain ⟨rfl, rfl⟩ := b1
      rw [ttp_en_zhCN caps isalpha c t ht hv, cacheLookup_cons_ne _ _ _ _ hk]; exact h
    by_cases b2 : s = "zh-CN" ∧ g = "en"
    · obtain ⟨rfl, rfl⟩ := b2
      rw [ttp_zhCN_en caps isalpha c t ht hv, cacheLookup_cons_ne _ _ _ _ hk]; exact h
    by_cases b3 : s = "zh-CN" ∧ g = "zh-TW"
    · obtain ⟨rfl, rfl⟩ := b3
      rw [ttp_zhCN_zhTW caps isalpha c t ht hv, cacheLookup_cons_ne _ _ _ _ hk]; exact h
    by_cases b4 : s = "zh-TW" ∧ g = "zh-CN"
    · obtain ⟨rfl, rfl⟩ := b4
      rw [ttp_zhTW_zhCN caps isalpha c t ht hv, cacheLookup_cons_ne _ _ _ _ hk]; exact h
    have hr : ¬ routed s g := by
      unfold routed; tauto
    rw [ttp_pass caps isalpha c t s g ht hs hr hv, cacheLookup_cons_ne _ _ _ _ hk]
    exact h

lemma ttp_mono_nonauto (caps : Caps) (isalpha : Char → Bool) (c : Cache)
    (t s g : String) (k : TKey) (v : String) (hs : s ≠ "auto")
    (h : cacheLookup c k = some v) :
    cacheLookup (translate_text_process caps isalpha c t s g).2.1 k = some v := by
  by_cases ht : t = ""
  · subst ht; rw [ttp_empty]; exact h
  by_cases b5 : s = "en" ∧ g = "zh-TW"
  · obtain ⟨rfl, rfl⟩ := b5
    cases hv : cacheLookup c (t, "en", "zh-TW") with
    | some w => rw [ttp_hit caps isalpha c t _ _ w ht hs hv]; exact h
    | none =>
      have hk : k ≠ (t, "en", "zh-TW") := ne_of_lookup c k _ v h hv
      rw [ttp_en_zhTW caps isalpha c t ht hv, cacheLookup_cons_ne _ _ _ _ hk]
      exact ttp_mono_basic caps isalpha _ _ _ _ k v (by simp) (by simp)
        (ttp_mono_basic caps isalpha c t _ _ k v (by simp) (by simp) h)
  by_cases b6 : s = "zh-TW" ∧ g = "en"
  · obtain ⟨rfl, rfl⟩ := b6
    cases hv : cacheLookup c (t, "zh-TW", "en") with
    | some w => rw [ttp_hit caps isalpha c t _ _ w ht hs hv]; exact h
    | none =>
      have hk : k ≠ (t, "zh-TW", "en") := ne_of_lookup c k _ v h hv
      rw [ttp_zhTW_en caps isalpha c t ht hv, cacheLookup_cons_ne _ _ _ _ hk]
      exact ttp_mono_basic caps isalpha _ _ _ _ k v (by simp) (by simp)
        (ttp_mono_basic caps isalpha c t _ _ k v (by simp) (by simp) h)
  exact ttp_mono_basic caps isalpha c t s g k v hs (by tauto) h

lemma ttp_mono (caps : Caps) (isalpha : Char → Bool) (c : Cache)
    (t s g : String) (k : TKey) (v : String)
    (h : cacheLookup c k = some v) :
    cacheLookup (translate_text_process caps isalpha c t s g).2.1 k = some v := by
  by_cases ht : t = ""
  · subst ht; rw [ttp_empty]; exact h
  by_cases ha : s = "auto"
  · subst ha
    rw [ttp_auto caps isalpha c t g ht]
    exact ttp_mono_nonauto caps isalpha c t _ g k v (detect_lang_ne_auto isalpha t) h
  · exact ttp_mono_nonauto caps isalpha c t s g k v ha h

/-! ### Every entry the router stores satisfies `EntryOk` -/

lemma entryOk_direct (t s g r : String) (ht : t ≠ "") (hro : routed s g) :
    EntryOk ((t, s, g), r) := by
  refine ⟨ht, ?_, fun hnr => absurd hro hnr⟩
  unfold routed at hro
  rcases hro with ⟨rfl, _⟩ | ⟨rfl, _⟩ | ⟨rfl, _⟩ | ⟨rfl, _⟩ | ⟨rfl, _⟩ | ⟨rfl, _⟩ <;> simp

lemma ttp_pres_basic (caps : Caps) (isalpha : Char → Bool) (c : Cache)
    (t s g : String) (hs : s ≠ "auto")
    (hnc : ¬((s = "en" ∧ g = "zh-TW") ∨ (s = "zh-TW" ∧ g = "en")))
    (hc : ∀ e ∈ c, EntryOk e) :
    ∀ e ∈ (translate_text_process caps isalpha c t s g).2.1, EntryOk e := by
  by_cases ht : t = ""
  · subst ht; rw [ttp_empty]; exact hc
  cases hv : cacheLookup c (t, s, g) with
  | some w => rw [ttp_hit caps isalpha c t s g w ht hs hv]; exact hc
  | none =>
    by_cases b1 : s = "en" ∧ g = "zh-CN"
    · obtain ⟨rfl, rfl⟩ := b1
      rw [ttp_en_zhCN caps isalpha c t ht hv]
      intro e he
      rcases List.mem_cons.mp he with rfl | he
      · exact entryOk_direct _ _ _ _ ht (by unfold routed; tauto)
      · exact hc e he
    by_cases b2 : s = "zh-CN" ∧ g = "en"
    · obtain ⟨rfl, rfl⟩ := b2
      rw [ttp_zhCN_en caps isalpha c t ht hv]
      intro e he
      rcases List.mem_cons.mp he with rfl | he
      · exact entryOk_direct _ _ _ _ ht (by unfold routed; tauto)
      · exact hc e he
    by_cases b3 : s = "zh-CN" ∧ g = "zh-TW"
    · obtain ⟨rfl, rfl⟩ := b3
      rw [ttp_zhCN_zhTW caps isalpha c t ht hv]
      intro e he
      rcases List.mem_cons.mp he with rfl | he
      · exact entryOk_direct _ _ _ _ ht (by unfold routed; tauto)
      · exact hc e he
    by_cases b4 : s = "zh-TW" ∧ g = "zh-CN"
    · obtain ⟨rfl, rfl⟩ := b4
      rw [ttp_zhTW_zhCN caps isalpha c t ht hv]
      intro e he
      rcases List.mem_cons.mp he with rfl | he
      · exact entryOk_direct _ _ _ _ ht (by unfold routed; tauto)
      · exact hc e he
    have hr : ¬ routed s g := by
      unfold routed; tauto
    rw [ttp_pass caps isalpha c t s g ht hs hr hv]
    intro e he
    rcases List.mem_cons.mp he with rfl | he
    · exact ⟨ht, hs, fun _ => rfl⟩
    · exact hc e he

lemma ttp_pres_nonauto (caps : Caps) (isalpha : Char → Bool) (c : Cache)
    (t s g : String) (hs : s ≠ "auto") (hc : ∀ e ∈ c, EntryOk e) :
    ∀ e ∈ (translate_text_process caps isalpha c t s g).2.1, EntryOk e := by
  by_cases ht : t = ""
  · subst ht; rw [ttp_empty]; exact hc
  by_cases b5 : s = "en" ∧ g = "zh-TW"
  · obtain ⟨rfl, rfl⟩ := b5
    cases hv : cacheLookup c (t, "en", "zh-TW") with
    | some w => rw [ttp_hit caps isalpha c t _ _ w ht hs hv]; exact hc
    | none =>
      rw [ttp_en_zhTW caps isalpha c t ht hv]
      intro e he
      rcases List.mem_cons.mp he with rfl | he
      · exact entryOk_direct _ _ _ _ ht (by unfold routed; tauto)
      · exact ttp_pres_basic caps isalpha _ _ _ _ (by simp) (by simp)
          (ttp_pres_basic caps isalpha c t _ _ (by simp) (by simp) hc) e he
  by_cases b6 : s = "zh-TW" ∧ g = "en"
  · obtain ⟨rfl, rfl⟩ := b6
    cases hv : cacheLookup c (t, "zh-TW", "en") with
    | some w => rw [ttp_hit caps isalpha c t _ _ w ht hs hv]; exact hc
    | none =>
      rw [ttp_zhTW_en caps isalpha c t ht hv]
      intro e he
      rcases List.mem_cons.mp he with rfl | he
      · exact entryOk_direct _ _ _ _ ht (by unfold routed; tauto)
      · exact ttp_pres_basic caps isalpha _ _ _ _ (by simp) (by simp)
          (ttp_pres_basic caps isalpha c t _ _ (by simp) (by simp) hc) e he
  exact ttp_pres_basic caps isalpha c t s g hs (by tauto) hc

lemma ttp_pres (caps : Caps) (isalpha : Char → Bool) (c : Cache)
    (t s g : String) (hc : ∀ e ∈ c, EntryOk e) :
    ∀ e ∈ (translate_text_process caps isalpha c t s g).2.1, EntryOk e := by
  by_cases ht : t = ""
  · subst ht; rw [ttp_empty]; exact hc
  by_cases ha : s = "auto"
  · subst ha
    rw [ttp_auto caps isalpha c t g ht]
    exact ttp_pres_nonauto caps isalpha c t _ g (detect_lang_ne_auto isalpha t) hc
  · exact ttp_pres_nonauto caps isalpha c t s g ha hc

/-- Every cache state reachable from the empty cache contains only `EntryOk`
entries. -/
lemma reachable_entries_ok (caps : Caps) (isalpha : Char → Bool) (c : Cache)
    (h : Reachable caps isalpha c) : ∀ e ∈ c, EntryOk e := by
  induction h with
  | init => simp
  | step c t s g _ ih => exact ttp_pres caps isalpha c t s g ih

lemma countP_le_countP (l : List Char) (p q : Char → Bool)
    (h : ∀ a, p a = true → q a = true) : l.countP p ≤ l.countP q := by
  induction l with
  | nil => simp
  | cons a l ih =>
    rw [List.countP_cons, List.countP_cons]
    by_cases hp : p a = true
    · simp [hp, h a hp]; omega
    · simp [hp]; omega

/-! ### Claims -/

/-- Claim C1: for nonempty text, the en↔zh-TW pairs are resolved as two full
recursive calls through zh-CN (each hop getting its own cache entry); on an
empty cache the en→zh-TW result is the zh-CN→zh-TW conversion applied to the
en→zh-CN output (and symmetrically), and already-cached hop results are
reused with zero capability invocations. -/
theorem claim_C1_composition (caps : Caps) (isalpha : Char → Bool) (c : Cache)
    (t : String) (ht : t ≠ "") :
    (cacheLookup c (t, "en", "zh-TW") = none →
      translate_text_process caps isalpha c t "en" "zh-TW" =
        ((translate_text_process caps isalpha
            (translate_text_process caps isalpha c t "en" "zh-CN").2.1
            (translate_text_process caps isalpha c t "en" "zh-CN").1
            "zh-CN" "zh-TW").1,
         ((t, "en", "zh-TW"),
            (translate_text_process caps isalpha
              (translate_text_process caps isalpha c t "en" "zh-CN").2.1
              (translate_text_process caps isalpha c t "en" "zh-CN").1
              "zh-CN" "zh-TW").1) ::
           (translate_text_process caps isalpha
             (translate_text_process caps isalpha c t "en" "zh-CN").2.1
             (translate_text_process caps isalpha c t "en" "zh-CN").1
             "zh-CN" "zh-TW").2.1,
         (translate_text_process caps isalpha c t "en" "zh-CN").2.2 +
           (translate_text_process caps isalpha
             (translate_text_process caps isalpha c t "en" "zh-CN").2.1
             (translate_text_process caps isalpha c t "en" "zh-CN").1
             "zh-CN" "zh-TW").2.2)) ∧
    (cacheLookup c (t, "zh-TW", "en") = none →
      translate_text_process caps isalpha c t "zh-TW" "en" =
        ((translate_text_process caps isalpha
            (translate_text_process caps isalpha c t "zh-TW" "zh-CN").2.1
            (translate_text_process caps isalpha c t "zh-TW" "zh-CN").1
            "zh-CN" "en").1,
         ((t, "zh-TW", "en"),
            (translate_text_process caps isalpha
              (translate_text_process caps isalpha c t "zh-TW" "zh-CN").2.1
              (translate_text_process caps isalpha c t "zh-TW" "zh-CN").1
              "zh-CN" "en").1) ::
           (translate_text_process caps isalpha
             (translate_text_process caps isalpha c t "zh-TW" "zh-CN").2.1
             (translate_text_process caps isalpha c t "zh-TW" "zh-CN").1
             "zh-CN" "en").2.1,
         (translate_text_process caps isalpha c t "zh-TW" "zh-CN").2.2 +
           (translate_text_process caps isalpha
             (translate_text_process caps isalpha c t "zh-TW" "zh-CN").2.1
             (translate_text_process caps isalpha c t "zh-TW" "zh-CN").1
             "zh-CN" "en").2.2)) ∧
    (caps.s2t "" = "" →
      (translate_text_process caps isalpha [] t "en" "zh-TW").1 =
        caps.s2t (caps.en_zh t)) ∧
    (caps.zh_en "" = "" →
      (translate_text_process caps isalpha [] t "zh-TW" "en").1 =
        caps.zh_en (caps.t2s t)) ∧
    (∀ v w : String, cacheLookup c (t, "en", "zh-TW") = none →
      cacheLookup c (t, "en", "zh-CN") = some v → v ≠ "" →
      cacheLookup c (v, "zh-CN", "zh-TW") = some w →
      translate_text_process caps isalpha c t "en" "zh-TW" =
        (w, ((t, "en", "zh-TW"), w) :: c, 0)) := by
  refine ⟨fun hm => ttp_en_zhTW caps isalpha c t ht hm,
          fun hm => ttp_zhTW_en caps isalpha c t ht hm, ?_, ?_, ?_⟩
  · intro hz
    rw [ttp_en_zhTW caps isalpha [] t ht rfl]
    rw [ttp_en_zhCN caps isalpha [] t ht rfl]
    dsimp only
    by_cases hmid : caps.en_zh t = ""
    · rw [hmid, ttp_empty, hz]
    · rw [ttp_zhCN_zhTW caps isalpha _ _ hmid
        (by simp [cacheLookup, Prod.ext_iff])]
  · intro hz
    rw [ttp_zhTW_en caps isalpha [] t ht rfl]
    rw [ttp_zhTW_zhCN caps isalpha [] t ht rfl]
    dsimp only
    by_cases hmid : caps.t2s t = ""
    · rw [hmid, ttp_empty, hz]
    · rw [ttp_zhCN_en caps isalpha _ _ hmid
        (by simp [cacheLookup, Prod.ext_iff])]
  · intro v w hm h1 hv h2
    rw [ttp_en_zhTW caps isalpha c t ht hm]
    rw [ttp_hit caps isalpha c t "en" "zh-CN" v ht (by simp) h1]
    dsimp only
    rw [ttp_hit caps isalpha c v "zh-CN" "zh-TW" w hv (by simp) h2]
    rfl

/-- Claim C1 witness: with marking stub capabilities, resolving
`("x", en, zh-TW)` on an empty cache yields the s2t conversion of the
en→zh-CN output of `"x"`. -/
theorem claim_C1_witness :
    ("x" : String) ≠ "" ∧ capsMark.s2t "" = "" ∧
    (translate_text_process capsMark pyIsAlpha [] "x" "en" "zh-TW").1 = "SEx" := by
  refine ⟨by decide, by decide, ?_⟩
  have h := (claim_C1_composition capsMark pyIsAlpha [] "x" (by decide)).2.2.1
    (by decide)
  rw [h]
  decide

/-- Claim C2 (code bug evidence): `detect_lang` resolves `"你好"` to `"en"`,
not `"zh-CN"`, because both CJK characters also count as alphabetic, so the
strict comparison fails; the `auto`-routed call then passes the text through
unchanged under the `(en, en)` key.  The `"hello"` half of the claim holds. -/
theorem claim_C2_failing_input :
    detect_lang pyIsAlpha "你好" = "en" ∧
    translate_text_process capsId pyIsAlpha [] "你好" "auto" "en" =
      ("你好", [(("你好", "en", "en"), "你好")], 0) ∧
    detect_lang pyIsAlpha "hello" = "en" := by
  refine ⟨by decide, ?_, by decide⟩
  rw [ttp_auto capsId pyIsAlpha [] "你好" "en" (by decide)]
  rw [show detect_lang pyIsAlpha "你好" = "en" from by decide]
  rw [ttp_pass capsId pyIsAlpha [] "你好" "en" "en" (by decide) (by decide)
    (by decide) rfl]

/-- Claim C3: `detect_lang` returns `"zh-CN"` exactly when the count of
characters in U+4E00..U+9FFF strictly exceeds the count of alphabetic
characters, and `"en"` otherwise; it is total, maps the empty string to
`"en"`, and never returns `"auto"` or `"zh-TW"`. -/
theorem claim_C3_detect_lang (isalpha : Char → Bool) (text : String) :
    (detect_lang isalpha text = "zh-CN" ↔
      text.data.countP (fun c => decide (0x4E00 ≤ c.toNat ∧ c.toNat ≤ 0x9FFF)) >
        text.data.countP (fun c => isalpha c)) ∧
    (detect_lang isalpha text = "en" ↔
      ¬ (text.data.countP (fun c => decide (0x4E00 ≤ c.toNat ∧ c.toNat ≤ 0x9FFF)) >
        text.data.countP (fun c => isalpha c))) ∧
    detect_lang isalpha "" = "en" ∧
    (detect_lang isalpha text = "zh-CN" ∨ detect_lang isalpha text = "en") ∧
    detect_lang isalpha text ≠ "auto" ∧ detect_lang isalpha text ≠ "zh-TW" := by
  unfold detect_lang
  dsimp only
  refine ⟨?_, ?_, by simp [detect_lang], ?_, ?_, ?_⟩ <;>
    · split <;> simp_all

/-- Claim C4: with empty text the router returns the empty string at once,
with the cache unchanged and zero capability invocations, for every source
and target value. -/
theorem claim_C4_empty_text (caps : Caps) (isalpha : Char → Bool) (c : Cache)
    (s g : String) :
    translate_text_process caps isalpha c "" s g = ("", c, 0) :=
  ttp_empty caps isalpha c s g

/-- Claim C5: for nonempty text, a concrete (non-`auto`) source and a
`(source, target)` pair outside the six routed pairs, the router returns the
text verbatim: on a cache miss it stores the passthrough result under
`(text, source, target)`, and from any reachable cache state the result is
the text itself with zero capability invocations. -/
theorem claim_C5_passthrough (caps : Caps) (isalpha : Char → Bool) (c : Cache)
    (t s g : String) (ht : t ≠ "") (hs : s ≠ "auto") (hr : ¬ routed s g) :
    (cacheLookup c (t, s, g) = none →
      translate_text_process caps isalpha c t s g =
        (t, ((t, s, g), t) :: c, 0)) ∧
    (Reachable caps isalpha c →
      (translate_text_process caps isalpha c t s g).1 = t ∧
      (translate_text_process caps isalpha c t s g).2.2 = 0) := by
  constructor
  · exact fun hm => ttp_pass caps isalpha c t s g ht hs hr hm
  · intro hre
    cases hv : cacheLookup c (t, s, g) with
    | none => rw [ttp_pass caps isalpha c t s g ht hs hr hv]; exact ⟨rfl, rfl⟩
    | some w =>
      have hmem := cacheLookup_mem c (t, s, g) w hv
      have hok := reachable_entries_ok caps isalpha c hre _ hmem
      have hw : w = t := hok.2.2 hr
      rw [ttp_hit caps isalpha c t s g w ht hs hv, hw]
      exact ⟨rfl, rfl⟩

/-- Claim C5 witness: the unsupported pair `(fr, de)` passes `"abc"` through
unchanged and caches it. -/
theorem claim_C5_witness :
    (("abc" : String) ≠ "" ∧ ("fr" : String) ≠ "auto" ∧ ¬ routed "fr" "de") ∧
    translate_text_process capsId pyIsAlpha [] "abc" "fr" "de" =
      ("abc", [(("abc", "fr", "de"), "abc")], 0) ∧
    (translate_text_process capsId pyIsAlpha [] "abc" "fr" "de").1 = "abc" :=
  ⟨⟨by decide, by decide, by decide⟩,
   (claim_C5_passthrough capsId pyIsAlpha [] "abc" "fr" "de" (by decide)
     (by decide) (by decide)).1 rfl,
   ((claim_C5_passthrough capsId pyIsAlpha [] "abc" "fr" "de" (by decide)
     (by decide) (by decide)).2 Reachable.init).1⟩

/-- Claim C6: calling the router twice with the same arguments returns the
identical string, leaves the cache of the first call untouched, and performs
zero capability invocations on the second call. -/
theorem claim_C6_idempotence (caps : Caps) (isalpha : Char → Bool) (c : Cache)
    (t s g : String) :
    (translate_text_process caps isalpha
        (translate_text_process caps isalpha c t s g).2.1 t s g).1 =
      (translate_text_process caps isalpha c t s g).1 ∧
    (translate_text_process caps isalpha
        (translate_text_process caps isalpha c t s g).2.1 t s g).2.1 =
      (translate_text_process caps isalpha c t s g).2.1 ∧
    (translate_text_process caps isalpha
        (translate_text_process caps isalpha c t s g).2.1 t s g).2.2 = 0 := by
  by_cases ht : t = ""
  · subst ht; simp [ttp_empty]
  · have hk := ttp_lookup_self caps isalpha c t s g ht
    by_cases ha : s = "auto"
    · subst ha
      have hk' : cacheLookup
          (translate_text_process caps isalpha c t "auto" g).2.1
          (t, detect_lang isalpha t, g) =
          some (translate_text_process caps isalpha c t "auto" g).1 := by
        simpa [resolveSrc] using hk
      rw [ttp_auto caps isalpha
        (translate_text_process caps isalpha c t "auto" g).2.1 t g ht]
      rw [ttp_hit caps isalpha
        (translate_text_process caps isalpha c t "auto" g).2.1 t
        (detect_lang isalpha t) g
        (translate_text_process caps isalpha c t "auto" g).1 ht
        (detect_lang_ne_auto isalpha t) hk']
      exact ⟨rfl, rfl, rfl⟩
    · have hk' : cacheLookup
          (translate_text_process caps isalpha c t s g).2.1 (t, s, g) =
          some (translate_text_process caps isalpha c t s g).1 := by
        simpa [resolveSrc, ha] using hk
      rw [ttp_hit caps isalpha
        (translate_text_process caps isalpha c t s g).2.1 t s g
        (translate_text_process caps isalpha c t s g).1 ht ha hk']
      exact ⟨rfl, rfl, rfl⟩

/-- Claim C7 counterexample: a caller-supplied target of `"auto"` is stored
verbatim in the cache key, so `"auto"` can appear as a key component of a
reachable cache state, contradicting the claim as stated. -/
theorem claim_C7_counterexample :
    translate_text_process capsId pyIsAlpha [] "hi" "en" "auto" =
      ("hi", [(("hi", "en", "auto"), "hi")], 0) ∧
    Reachable capsId pyIsAlpha [(("hi", "en", "auto"), "hi")] ∧
    (("hi", "en", "auto"), "hi").1.2.2 = "auto" := by
  have h1 : translate_text_process capsId pyIsAlpha [] "hi" "en" "auto" =
      ("hi", [(("hi", "en", "auto"), "hi")], 0) :=
    ttp_pass capsId pyIsAlpha [] "hi" "en" "auto" (by decide) (by decide)
      (by decide) rfl
  refine ⟨h1, ?_, rfl⟩
  have h2 : Reachable capsId pyIsAlpha
      (translate_text_process capsId pyIsAlpha [] "hi" "en" "auto").2.1 :=
    Reachable.step [] "hi" "en" "auto" Reachable.init
  rw [h1] at h2
  exact h2

/-- Claim C7 (amended): the `"auto"` sentinel never appears as the
resolved-source component of any key stored in a reachable cache state; a
caller-supplied source `"auto"` is always replaced by the `detect_lang`
output in both lookup and store.  (A caller-supplied target — or text —
equal to `"auto"` is used in the key verbatim.) -/
theorem claim_C7_amended (caps : Caps) (isalpha : Char → Bool) (c : Cache)
    (h : Reachable caps isalpha c) : ∀ e ∈ c, e.1.2.1 ≠ "auto" :=
  fun e he => (reachable_entries_ok caps isalpha c h e he).2.1

/-- Claim C7 witness: the cache entry created by an `auto`-sourced call keys
on the detected source `"en"`, not on `"auto"`. -/
theorem claim_C7_witness :
    (("hello", "en", "zh-CN"), "hello") ∈
      (translate_text_process capsId pyIsAlpha [] "hello" "auto" "zh-CN").2.1 ∧
    (("hello", "en", "zh-CN"), "hello").1.2.1 ≠ "auto" := by
  have he : translate_text_process capsId pyIsAlpha [] "hello" "auto" "zh-CN" =
      ("hello", [(("hello", "en", "zh-CN"), "hello")], 1) := by
    rw [ttp_auto capsId pyIsAlpha [] "hello" "zh-CN" (by decide)]
    rw [show detect_lang pyIsAlpha "hello" = "en" from by decide]
    rw [ttp_en_zhCN capsId pyIsAlpha [] "hello" (by decide) rfl]
    rfl
  have hmem : (("hello", "en", "zh-CN"), "hello") ∈
      (translate_text_process capsId pyIsAlpha [] "hello" "auto" "zh-CN").2.1 := by
    rw [he]; simp
  exact ⟨hmem, claim_C7_amended capsId pyIsAlpha _
    (Reachable.step [] "hello" "auto" "zh-CN" Reachable.init) _ hmem⟩

/-- Claim C8: a call never changes the value bound to a key already present
in the cache — it can only add new entries. -/
theorem claim_C8_frame (caps : Caps) (isalpha : Char → Bool) (c : Cache)
    (t s g : String) (k : TKey) (v : String)
    (h : cacheLookup c k = some v) :
    cacheLookup (translate_text_process caps isalpha c t s g).2.1 k = some v :=
  ttp_mono caps isalpha c t s g k v h

/-- Claim C8 witness: an existing binding survives an unrelated call. -/
theorem claim_C8_witness :
    cacheLookup [(("a", "en", "fr"), "a")] ("a", "en", "fr") = some "a" ∧
    cacheLookup (translate_text_process capsId pyIsAlpha
        [(("a", "en", "fr"), "a")] "b" "en" "zh-CN").2.1 ("a", "en", "fr") =
      some "a" :=
  ⟨rfl, claim_C8_frame capsId pyIsAlpha [(("a", "en", "fr"), "a")]
    "b" "en" "zh-CN" ("a", "en", "fr") "a" rfl⟩

/-- Claim C9: when every character of U+4E00..U+9FFF satisfies the runtime's
alphabetic predicate (as Python's `str.isalpha` does), the CJK count can
never strictly exceed the alphabetic count, so `detect_lang` returns `"en"`
on every input and an `auto`-sourced call behaves exactly like an
`"en"`-sourced call. -/
theorem claim_C9_detect_always_en (isalpha : Char → Bool)
    (hCJK : ∀ ch : Char, 0x4E00 ≤ ch.toNat → ch.toNat ≤ 0x9FFF →
      isalpha ch = true) :
    ∀ text : String, detect_lang isalpha text = "en" ∧
      ∀ (caps : Caps) (c : Cache) (g : String),
        translate_text_process caps isalpha c text "auto" g =
          translate_text_process caps isalpha c text "en" g := by
  intro text
  have hle : text.data.countP
      (fun c => decide (0x4E00 ≤ c.toNat ∧ c.toNat ≤ 0x9FFF)) ≤
      text.data.countP (fun c => isalpha c) := by
    apply countP_le_countP
    intro a ha
    have := of_decide_eq_true ha
    exact hCJK a this.1 this.2
  have hen : detect_lang isalpha text = "en" := by
    unfold detect_lang
    dsimp only
    rw [if_neg (by omega)]
  refine ⟨hen, fun caps c g => ?_⟩
  by_cases ht : text = ""
  · subst ht; rw [ttp_empty, ttp_empty]
  · rw [ttp_auto caps isalpha c text g ht, hen]

/-- Claim C9 witness: `pyIsAlpha` satisfies the CJK-alphabetic hypothesis,
and on `"你好"` the detector indeed answers `"en"`. -/
theorem claim_C9_witness :
    (∀ ch : Char, 0x4E00 ≤ ch.toNat → ch.toNat ≤ 0x9FFF →
      pyIsAlpha ch = true) ∧
    detect_lang pyIsAlpha "你好" = "en" ∧
    translate_text_process capsId pyIsAlpha [] "你好" "auto" "zh-TW" =
      translate_text_process capsId pyIsAlpha [] "你好" "en" "zh-TW" := by
  have hp : ∀ ch : Char, 0x4E00 ≤ ch.toNat → ch.toNat ≤ 0x9FFF →
      pyIsAlpha ch = true := by
    intro ch h1 h2
    unfold pyIsAlpha
    simp [h1, h2]
  exact ⟨hp, (claim_C9_detect_always_en pyIsAlpha hp "你好").1,
    (claim_C9_detect_always_en pyIsAlpha hp "你好").2 capsId [] "zh-TW"⟩

/-- Claim C10: every key stored in a reachable cache state has a nonempty
text component. -/
theorem claim_C10_nonempty_keys (caps : Caps) (isalpha : Char → Bool)
    (c : Cache) (h : Reachable caps isalpha c) : ∀ e ∈ c, e.1.1 ≠ "" :=
  fun e he => (reachable_entries_ok caps isalpha c h e he).1

/-- Claim C10 witness: the entry created by a direct en→zh-CN call has the
nonempty text `"hi"` as its key text component. -/
theorem claim_C10_witness :
    (("hi", "en", "zh-CN"), "hi") ∈
      (translate_text_process capsId pyIsAlpha [] "hi" "en" "zh-CN").2.1 ∧
    (("hi", "en", "zh-CN"), "hi").1.1 ≠ "" := by
  have he : translate_text_process capsId pyIsAlpha [] "hi" "en" "zh-CN" =
      ("hi", [(("hi", "en", "zh-CN"), "hi")], 1) :=
    ttp_en_zhCN capsId pyIsAlpha [] "hi" (by decide) rfl
  have hmem : (("hi", "en", "zh-CN"), "hi") ∈
      (translate_text_process capsId pyIsAlpha [] "hi" "en" "zh-CN").2.1 := by
    rw [he]; simp
  exact ⟨hmem, claim_C10_nonempty_keys capsId pyIsAlpha _
    (Reachable.step [] "hi" "en" "zh-CN" Reachable.init) _ hmem⟩

end App
